import Mathlib

/-!
Verification of the gname libdns provider (repository r6c/gname).

The current generation of the code consists of the transport
(`client.go`: `MakeApiRequestWithClient`, `libdnsZoneToDnslaDomain`),
the record models with TTL parsing (`models.go` generation with the
`TTL` field and the `RR()` method), and the provider operations
(`GetRecords`, `AppendRecords`, `SetRecords`, `DeleteRecords`).
This file is a shallow embedding of that code: pure helpers become Lean
functions, the network is an explicit oracle (the response of each call
is a parameter), and each provider operation returns the transcript of
the calls it made together with the success list and the error.
-/

namespace Gname

/-- Model of Go `strconv.Atoi` (`ParseInt(s, 10, 0)` with 64-bit int):
an optional leading `+` or `-` sign followed by at least one ASCII
digit parses to the integer value when that value fits in `int64`;
a malformed string (`ErrSyntax`) and a value outside
`[-2^63, 2^63 - 1]` (`ErrRange`) both make `Atoi` return a non-nil
error, modelled as `none`. -/
def atoi? (s : String) : Option Int :=
  let digitsVal : List Char → Nat :=
    fun l => l.foldl (fun acc c => acc * 10 + (c.toNat - 48)) 0
  match s.data with
  | [] => none
  | c :: rest =>
    if c = '+' then
      if rest ≠ [] ∧ rest.all (·.isDigit) then
        if (digitsVal rest : Int) ≤ 9223372036854775807 then
          some (digitsVal rest)
        else none
      else none
    else if c = '-' then
      if rest ≠ [] ∧ rest.all (·.isDigit) then
        if -9223372036854775808 ≤ (-(digitsVal rest : Int)) then
          some (-(digitsVal rest : Int))
        else none
      else none
    else
      if (c :: rest).all (·.isDigit) then
        if (digitsVal (c :: rest) : Int) ≤ 9223372036854775807 then
          some (digitsVal (c :: rest))
        else none
      else none

/-- Go `strings.HasSuffix(s, ".")` for the one-character suffix `"."`:
whether the last character is a dot.  (Stated on the character list so
that concrete instances reduce in the kernel.) -/
def endsWithDot (s : String) : Bool :=
  s.data.getLast? = some '.'

/-- `libdnsZoneToDnslaDomain` from client.go: strips one trailing dot
(Go `strings.TrimSuffix(zone, ".")`, which removes the suffix once when
present and otherwise returns the string unchanged). -/
def libdnsZoneToDnslaDomain (zone : String) : String :=
  if endsWithDot zone then String.mk zone.data.dropLast else zone

/-- `libdns.RR`, the generic record shape consumed and produced by the
provider: name, type, data (value) and TTL.  The TTL is modelled in
whole seconds (Go stores a `time.Duration`; every request renders it
with `%.0f` applied to `.Seconds()`, i.e. whole seconds). -/
structure RR where
  name : String
  type : String
  data : String
  ttl : Nat
deriving DecidableEq, Repr

/-- `DomainResolutionRecord` from the models file: the vendor's wire
representation of one stored record. -/
structure DomainResolutionRecord where
  id : String
  ym : String
  zjt : String
  lx : String
  jxz : String
  mx : String
  xlid : Int
  zt : String
  ttl : String
deriving DecidableEq, Repr

/-- `toLibdnsRecord` from the models file: maps a vendor record to the
generic `libdns.RR` form.  Name, type and value pass through verbatim;
the TTL string is parsed with `strconv.Atoi` and used when positive,
otherwise the TTL defaults to 600 seconds.  The `zone` argument is
accepted and ignored exactly as in the source. -/
def DomainResolutionRecord.toLibdnsRecord (record : DomainResolutionRecord)
    (zone : String) : RR :=
  let ttlVal : Nat :=
    if record.ttl ≠ "" then
      match atoi? record.ttl with
      | some parsedTTL => if 0 < parsedTTL then parsedTTL.toNat else 600
      | none => 600
    else 600
  { name := record.zjt, type := record.lx, data := record.jxz, ttl := ttlVal }

/-- A value of Go interface type `libdns.Record` as it occurs in this
program: either a plain `libdns.RR` or the vendor's concrete
`DomainResolutionRecord` (which implements the interface through its
`RR()` method). -/
inductive LibdnsRecord where
  | rr (r : RR)
  | vendor (rec : DomainResolutionRecord)
deriving DecidableEq, Repr

/-- The `RR()` interface method: the identity on `libdns.RR`, and
`toLibdnsRecord("")` on a `DomainResolutionRecord` (models file). -/
def LibdnsRecord.toRR : LibdnsRecord → RR
  | .rr r => r
  | .vendor rec => rec.toLibdnsRecord ""

/-- The Go type assertion `rec.(DomainResolutionRecord)` used by
`SetRecords` and `DeleteRecords` to recover the vendor ID: succeeds
exactly when the dynamic type is `DomainResolutionRecord`. -/
def LibdnsRecord.asVendor : LibdnsRecord → Option DomainResolutionRecord
  | .rr _ => none
  | .vendor rec => some rec

/-- `CommonResponse` from the models file: the uniform response
envelope `{code, msg}` every vendor reply carries. -/
structure CommonResponse where
  code : Int
  msg : String
deriving DecidableEq, Repr

/-- `ResolutionList` from the models file: the decoded payload of the
list endpoint. -/
structure ResolutionList where
  code : Int
  msg : String
  data : List DomainResolutionRecord
  count : Int
  page : Int
  pageSize : Int
deriving DecidableEq, Repr

/-- `AddDomainRecord` from the models file: decoded payload of the add
endpoint (`data` is the new record's numeric ID). -/
structure AddDomainRecord where
  code : Int
  msg : String
  data : Int
deriving DecidableEq, Repr

/-- `UpdateDomainRecord` from the models file: decoded payload of the
edit endpoint. -/
structure UpdateDomainRecord where
  code : Int
  msg : String
  data : String
deriving DecidableEq, Repr

/-- `DeleteDomainRecord` from the models file: decoded payload of the
delete endpoint. -/
structure DeleteDomainRecord where
  code : Int
  msg : String
deriving DecidableEq, Repr

/-- The failure cases of `MakeApiRequestWithClient` after the HTTP
round trip (client.go lines 80-106): non-200 status, envelope decode
failure, envelope code different from 1, payload decode failure. -/
inductive RequestError where
  | transport (status : Nat) (body : String)
  | envelopeDecode (msg : String)
  | api (msg : String) (code : Int)
  | payloadDecode (msg : String)
deriving DecidableEq, Repr

/-- The response-handling tail of `MakeApiRequestWithClient` (client.go
lines 80-106).  `decodeEnvelope` and `decodePayload` stand for
`json.Unmarshal` into `CommonResponse` and into the endpoint payload
type; `statusCode` and `body` are the HTTP response.  A status other
than 200 (`http.StatusOK`) fails with a transport error carrying the
raw body; then the envelope is decoded and a code different from 1
fails with an API error carrying the vendor message and code; then the
payload type is decoded from the same body and returned. -/
def processResponse {T : Type} (decodeEnvelope : String → Except String CommonResponse)
    (decodePayload : String → Except String T)
    (statusCode : Nat) (body : String) : Except RequestError T :=
  if statusCode ≠ 200 then
    .error (.transport statusCode body)
  else
    match decodeEnvelope body with
    | .error m => .error (.envelopeDecode m)
    | .ok commonResponse =>
      if commonResponse.code ≠ 1 then
        .error (.api commonResponse.msg commonResponse.code)
      else
        match decodePayload body with
        | .error m => .error (.payloadDecode m)
        | .ok response => .ok response

/-- Lowercase hexadecimal digit, as produced by Go `fmt.Sprintf("%x")`. -/
def hexDigitLower (n : Nat) : Char :=
  if n < 10 then Char.ofNat (48 + n) else Char.ofNat (87 + n)

/-- Uppercase hexadecimal digit. -/
def hexDigitUpper (n : Nat) : Char :=
  if n < 10 then Char.ofNat (48 + n) else Char.ofNat (55 + n)

/-- One byte as two lowercase hex digits (`%x` pads every byte to two
digits). -/
def byteHexLower (b : Nat) : List Char :=
  [hexDigitLower (b / 16), hexDigitLower (b % 16)]

/-- One byte as two uppercase hex digits. -/
def byteHexUpper (b : Nat) : List Char :=
  [hexDigitUpper (b / 16), hexDigitUpper (b % 16)]

/-- Go `fmt.Sprintf("%x", digest)`: the bytes of a digest rendered as a
lowercase hexadecimal string. -/
def hexLowerStr (bs : List Nat) : String :=
  String.mk (bs.map byteHexLower).flatten

/-- A digest rendered as an uppercase hexadecimal string. -/
def hexUpperStr (bs : List Nat) : String :=
  String.mk (bs.map byteHexUpper).flatten

/-- Model of Go `strings.ToUpper` on the ASCII strings it is applied to
here (hexadecimal digests): every lowercase ASCII letter is replaced by
its uppercase form. -/
def toUpperAscii (s : String) : String :=
  String.mk (s.data.map Char.toUpper)

/-- Modelled from the spec: the URL-encoding of parameter values
performed by the go-join library (`URLCoding: gojoin.Encoding`, the
source of which is not part of this repository).  Unreserved bytes
(ASCII letters, digits, `-` `_` `.` `~`) pass through, a space becomes
`+`, and every other byte of the UTF-8 form becomes `%` followed by two
uppercase hex digits. -/
def urlEncode (s : String) : String :=
  let encodeByte : Nat → List Char := fun b =>
    if (48 ≤ b ∧ b ≤ 57) ∨ (65 ≤ b ∧ b ≤ 90) ∨ (97 ≤ b ∧ b ≤ 122)
        ∨ b = 45 ∨ b = 95 ∨ b = 46 ∨ b = 126 then
      [Char.ofNat b]
    else if b = 32 then
      ['+']
    else
      '%' :: byteHexUpper b
  String.mk ((s.toUTF8.toList.map (fun b => encodeByte b.toNat)).flatten)

/-- Ordering of request parameters by key (byte order on the key
strings, which for ASCII keys is exactly ASCII order). -/
def keyLE (a b : String × String) : Prop := a.1 ≤ b.1

instance : DecidableRel keyLE := fun a b =>
  inferInstanceAs (Decidable (a.1 ≤ b.1))

instance : IsTotal (String × String) keyLE :=
  ⟨fun a b => le_total a.1 b.1⟩

instance : IsTrans (String × String) keyLE :=
  ⟨fun _ _ _ hab hbc => le_trans hab hbc⟩

/-- Modelled from the spec: the go-join library call
`gojoin.Join(url, {Sep: "&", KVSep: "=", Order: ASCII, URLCoding:
Encoding})` used by `MakeApiRequestWithClient`.  The library itself is
an external dependency whose source is not in this repository; per the
spec it takes the query parameters of the URL it is given, sorts them
by key in strict ASCII byte order, URL-encodes the values, and joins
them as `key=value` pairs with `&`.  Here the query parameters are
given directly as a list of key-value pairs. -/
def gojoinJoin (pairs : List (String × String)) : String :=
  String.intercalate "&"
    ((List.insertionSort keyLE pairs).map (fun p => p.1 ++ "=" ++ urlEncode p.2))

/-- The three strings the signing part of `MakeApiRequestWithClient`
produces: the canonical sorted parameter string, the `gntoken`
signature, and the request body. -/
structure SignedRequest where
  sortedParams : String
  gnToken : String
  bodyStr : String
deriving DecidableEq, Repr

/-- The signing part of `MakeApiRequestWithClient` (client.go lines
31-54).  `digest` abstracts `md5.Sum` (it returns the 16 digest bytes);
`endpointParams` are the query parameters the caller put into the
endpoint string, to which the code appends the `gntime` timestamp
before canonicalizing.  The signature is the uppercase form of the
`%x` rendering of the MD5 digest of the sorted parameter string
concatenated with the app key, and the body is the sorted parameter
string followed by `&gntoken=` and the signature. -/
def buildSignedRequest (digest : String → List Nat)
    (endpointParams : List (String × String)) (gntime : Int)
    (appKey : String) : SignedRequest :=
  let allParams := endpointParams ++ [("gntime", toString gntime)]
  let sortedParams := gojoinJoin allParams
  let signParams := sortedParams ++ appKey
  let gnToken := toUpperAscii (hexLowerStr (digest signParams))
  { sortedParams := sortedParams
    gnToken := gnToken
    bodyStr := sortedParams ++ "&gntoken=" ++ gnToken }

/-- One network call made by the provider, with the parameters the
provider puts into the request (the `fmt.Sprintf` parameter strings of
provider operations, broken into their fields). -/
inductive ApiCall where
  | list (appid ym : String)
  | add (appid ym lx zj jlz : String) (ttl : Nat)
  | edit (appid ym lx zj jlz : String) (ttl : Nat) (jxid : String)
  | delete (appid ym jxid : String)
deriving DecidableEq, Repr

/-- Outcome of one provider-operation loop: the transcript of calls it
made (each tagged with the index of the input record that caused it —
the tag is bookkeeping added by the embedding), the records reported as
successful, and the error if the loop aborted. -/
structure LoopOutcome where
  calls : List (Nat × ApiCall)
  success : List RR
  error : Option String
deriving DecidableEq, Repr

/-- Outcome of a whole provider operation: the untagged transcript in
call order, the returned records and the returned error. -/
structure TopOutcome where
  calls : List ApiCall
  success : List RR
  error : Option String
deriving DecidableEq, Repr

/-- Whether a `MakeApiRequestWithClient` outcome is a success. -/
def isOkB {α : Type} : Except String α → Bool
  | .ok _ => true
  | .error _ => false

/-- `GetRecords`: trims the zone, makes the list call, and maps every
vendor record of the response to its generic form.  `listResult`
abstracts the outcome of `MakeApiRequestWithClient` for the list call;
on failure `GetRecords` wraps the error with the zone. -/
def getRecords (zone : String) (listResult : Except String ResolutionList) :
    Except String (List LibdnsRecord) :=
  let trimmedZone := libdnsZoneToDnslaDomain zone
  match listResult with
  | .error e => .error ("failed to get records for zone " ++ zone ++ ": " ++ e)
  | .ok response =>
    .ok (response.data.map (fun rec => LibdnsRecord.rr (rec.toLibdnsRecord trimmedZone)))

/-- The loop of `AppendRecords`: for each record, one add call built
from the record's `RR()` fields; on a failed call the loop stops,
returning the successes so far and the wrapped error; on a successful
call the appended record (name, type, data, TTL of the input) joins the
success list.  `aR` gives the outcome of the add call made for the
record at each input index. -/
def appendLoop (appid zone ym : String)
    (aR : Nat → Except String AddDomainRecord) :
    Nat → List LibdnsRecord → LoopOutcome
  | _, [] => ⟨[], [], none⟩
  | i, record :: rest =>
    let rr := record.toRR
    let call := ApiCall.add appid ym rr.type rr.name rr.data rr.ttl
    match aR i with
    | .error e =>
      ⟨[(i, call)], [],
        some ("failed to append record " ++ rr.name ++ "." ++ zone ++ ": " ++ e)⟩
    | .ok _ =>
      let tail := appendLoop appid zone ym aR (i + 1) rest
      ⟨(i, call) :: tail.calls, rr :: tail.success, tail.error⟩

/-- `AppendRecords`: trims the zone and runs the append loop from the
first record. -/
def appendRecords (appid zone : String)
    (aR : Nat → Except String AddDomainRecord)
    (records : List LibdnsRecord) : TopOutcome :=
  let ym := libdnsZoneToDnslaDomain zone
  let o := appendLoop appid zone ym aR 0 records
  ⟨o.calls.map Prod.snd, o.success, o.error⟩

/-- The first-match scan shared by `SetRecords` and `DeleteRecords`:
the first listed record whose `RR()` name and type equal the desired
record's. -/
def findMatch (recs : List LibdnsRecord) (rr : RR) : Option LibdnsRecord :=
  recs.find? (fun rec => rec.toRR.name == rr.name && rec.toRR.type == rr.type)

/-- The vendor-ID recovery of `SetRecords`/`DeleteRecords`: the type
assertion `rec.(DomainResolutionRecord)` gives the ID when it succeeds;
otherwise the ID stays `""`. -/
def resolveId (rec : LibdnsRecord) : String :=
  match rec.asVendor with
  | some dnslaRec => dnslaRec.id
  | none => ""

/-- The loop of `SetRecords` over the desired records, matching each
against the fixed `listing` taken at entry.  No match: the record goes
through `AppendRecords` on the one-element slice (one add call, inlined
here).  Match with empty recovered ID: the record is skipped.  Match
with a vendor ID: one edit call carrying the desired record's fields
and the ID; the record joins the success list exactly when the decoded
response code is 1.  A failed call aborts the loop with the wrapped
error.  `aR`/`eR` give the outcome of the add/edit call made for the
record at each input index. -/
def setLoop (appid zone ym : String) (listing : List LibdnsRecord)
    (aR : Nat → Except String AddDomainRecord)
    (eR : Nat → Except String UpdateDomainRecord) :
    Nat → List LibdnsRecord → LoopOutcome
  | _, [] => ⟨[], [], none⟩
  | i, record :: rest =>
    let rr := record.toRR
    match findMatch listing rr with
    | none =>
      let call := ApiCall.add appid ym rr.type rr.name rr.data rr.ttl
      match aR i with
      | .error e =>
        ⟨[(i, call)], [],
          some ("failed to create new record: " ++
            ("failed to append record " ++ rr.name ++ "." ++ zone ++ ": " ++ e))⟩
      | .ok _ =>
        let tail := setLoop appid zone ym listing aR eR (i + 1) rest
        ⟨(i, call) :: tail.calls, rr :: tail.success, tail.error⟩
    | some rec =>
      let recordId := resolveId rec
      if recordId = "" then
        setLoop appid zone ym listing aR eR (i + 1) rest
      else
        let call := ApiCall.edit appid ym rr.type rr.name rr.data rr.ttl recordId
        match eR i with
        | .error e =>
          ⟨[(i, call)], [],
            some ("failed to update record " ++ rr.name ++ "." ++ zone ++ ": " ++ e)⟩
        | .ok response =>
          let tail := setLoop appid zone ym listing aR eR (i + 1) rest
          if response.code = 1 then
            ⟨(i, call) :: tail.calls, rr :: tail.success, tail.error⟩
          else
            ⟨(i, call) :: tail.calls, tail.success, tail.error⟩

/-- `SetRecords`: trims the zone, lists the zone once through
`GetRecords` (aborting on its failure), and runs the set loop over the
desired records against that single snapshot. -/
def setRecords (appid zone : String) (listResult : Except String ResolutionList)
    (aR : Nat → Except String AddDomainRecord)
    (eR : Nat → Except String UpdateDomainRecord)
    (records : List LibdnsRecord) : TopOutcome :=
  let ym := libdnsZoneToDnslaDomain zone
  let listCall := ApiCall.list appid ym
  match getRecords zone listResult with
  | .error e => ⟨[listCall], [], some ("failed to get existing records: " ++ e)⟩
  | .ok listing =>
    let o := setLoop appid zone ym listing aR eR 0 records
    ⟨listCall :: o.calls.map Prod.snd, o.success, o.error⟩

/-- The loop of `DeleteRecords`: for each target record the first-match
scan recovers a vendor ID through the type assertion; an empty ID
(no match, or assertion failure) skips the record with no call; with an
ID, one delete call carrying only appid, zone and the ID; the input
record's `RR()` joins the success list exactly when the decoded
response code is 1.  A failed call aborts the loop with the wrapped
error. -/
def deleteLoop (appid zone ym : String) (listing : List LibdnsRecord)
    (dR : Nat → Except String DeleteDomainRecord) :
    Nat → List LibdnsRecord → LoopOutcome
  | _, [] => ⟨[], [], none⟩
  | i, record :: rest =>
    let rr := record.toRR
    let recordId :=
      match findMatch listing rr with
      | some rec => resolveId rec
      | none => ""
    if recordId = "" then
      deleteLoop appid zone ym listing dR (i + 1) rest
    else
      let call := ApiCall.delete appid ym recordId
      match dR i with
      | .error e =>
        ⟨[(i, call)], [],
          some ("failed to delete record " ++ rr.name ++ "." ++ zone ++ ": " ++ e)⟩
      | .ok response =>
        let tail := deleteLoop appid zone ym listing dR (i + 1) rest
        if response.code = 1 then
          ⟨(i, call) :: tail.calls, rr :: tail.success, tail.error⟩
        else
          ⟨(i, call) :: tail.calls, tail.success, tail.error⟩

/-- `DeleteRecords`: trims the zone, lists the zone once through
`GetRecords` (aborting on its failure), and runs the delete loop over
the target records against that single snapshot. -/
def deleteRecords (appid zone : String) (listResult : Except String ResolutionList)
    (dR : Nat → Except String DeleteDomainRecord)
    (records : List LibdnsRecord) : TopOutcome :=
  let ym := libdnsZoneToDnslaDomain zone
  let listCall := ApiCall.list appid ym
  match getRecords zone listResult with
  | .error e => ⟨[listCall], [], some ("failed to get existing records: " ++ e)⟩
  | .ok listing =>
    let o := deleteLoop appid zone ym listing dR 0 records
    ⟨listCall :: o.calls.map Prod.snd, o.success, o.error⟩

/-- The calls of a tagged transcript attributed to input record `i`. -/
def callsFor (i : Nat) (calls : List (Nat × ApiCall)) : List ApiCall :=
  (calls.filter (fun c => c.1 == i)).map Prod.snd

/-- Whether a call is a list call. -/
def isListCall : ApiCall → Bool
  | .list _ _ => true
  | _ => false

/-- Whether the set loop gets past the record at index `i` without
aborting: the record is appended successfully (no match), or skipped
(match with empty recovered ID), or its edit call returns without error
(whatever the decoded code). -/
def setStepOk (listing : List LibdnsRecord)
    (aR : Nat → Except String AddDomainRecord)
    (eR : Nat → Except String UpdateDomainRecord)
    (i : Nat) (record : LibdnsRecord) : Bool :=
  match findMatch listing record.toRR with
  | none => isOkB (aR i)
  | some rec => (resolveId rec == "") || isOkB (eR i)

/-- Whether the delete loop gets past the record at index `i` without
aborting: the record is skipped (empty recovered ID) or its delete call
returns without error. -/
def delStepOk (listing : List LibdnsRecord)
    (dR : Nat → Except String DeleteDomainRecord)
    (i : Nat) (record : LibdnsRecord) : Bool :=
  match findMatch listing record.toRR with
  | none => true
  | some rec => (resolveId rec == "") || isOkB (dR i)

theorem appendLoop_tag_bounds (appid zone ym : String)
    (aR : Nat → Except String AddDomainRecord) :
    ∀ (l : List LibdnsRecord) (i : Nat),
      ∀ c ∈ (appendLoop appid zone ym aR i l).calls,
        (i ≤ c.1 ∧ c.1 < i + l.length) ∧ isListCall c.2 = false := by
  intro l
  induction l with
  | nil =>
    intro i c hc
    simp [appendLoop] at hc
  | cons r rest ih =>
    intro i c hc
    simp only [appendLoop] at hc
    cases haR : aR i with
    | error e =>
      simp only [haR] at hc
      simp at hc
      subst hc
      exact ⟨⟨le_rfl, by simp only [List.length_cons]; omega⟩, rfl⟩
    | ok v =>
      simp only [haR] at hc
      simp at hc
      rcases hc with hc | hc
      · subst hc
        exact ⟨⟨le_rfl, by simp only [List.length_cons]; omega⟩, rfl⟩
      · obtain ⟨⟨h1, h2⟩, h3⟩ := ih (i + 1) c hc
        exact ⟨⟨by omega, by simp only [List.length_cons]; omega⟩, h3⟩

theorem setLoop_tag_bounds (appid zone ym : String) (listing : List LibdnsRecord)
    (aR : Nat → Except String AddDomainRecord)
    (eR : Nat → Except String UpdateDomainRecord) :
    ∀ (l : List LibdnsRecord) (i : Nat),
      ∀ c ∈ (setLoop appid zone ym listing aR eR i l).calls,
        (i ≤ c.1 ∧ c.1 < i + l.length) ∧ isListCall c.2 = false := by
  intro l
  induction l with
  | nil =>
    intro i c hc
    simp [setLoop] at hc
  | cons r rest ih =>
    intro i c hc
    simp only [setLoop] at hc
    cases hfm : findMatch listing r.toRR with
    | none =>
      simp only [hfm] at hc
      cases haR : aR i with
      | error e =>
        simp only [haR] at hc
        simp at hc
        subst hc
        exact ⟨⟨le_rfl, by simp only [List.length_cons]; omega⟩, rfl⟩
      | ok v =>
        simp only [haR] at hc
        simp at hc
        rcases hc with hc | hc
        · subst hc
          exact ⟨⟨le_rfl, by simp only [List.length_cons]; omega⟩, rfl⟩
        · obtain ⟨⟨h1, h2⟩, h3⟩ := ih (i + 1) c hc
          exact ⟨⟨by omega, by simp only [List.length_cons]; omega⟩, h3⟩
    | some rec =>
      simp only [hfm] at hc
      by_cases hid : resolveId rec = ""
      · rw [if_pos hid] at hc
        obtain ⟨⟨h1, h2⟩, h3⟩ := ih (i + 1) c hc
        exact ⟨⟨by omega, by simp only [List.length_cons]; omega⟩, h3⟩
      · rw [if_neg hid] at hc
        cases heR : eR i with
        | error e =>
          simp only [heR] at hc
          simp at hc
          subst hc
          exact ⟨⟨le_rfl, by simp only [List.length_cons]; omega⟩, rfl⟩
        | ok resp =>
          simp only [heR] at hc
          by_cases hcode : resp.code = 1
          · rw [if_pos hcode] at hc
            simp at hc
            rcases hc with hc | hc
            · subst hc
              exact ⟨⟨le_rfl, by simp only [List.length_cons]; omega⟩, rfl⟩
            · obtain ⟨⟨h1, h2⟩, h3⟩ := ih (i + 1) c hc
              exact ⟨⟨by omega, by simp only [List.length_cons]; omega⟩, h3⟩
          · rw [if_neg hcode] at hc
            simp at hc
            rcases hc with hc | hc
            · subst hc
              exact ⟨⟨le_rfl, by simp only [List.length_cons]; omega⟩, rfl⟩
            · obtain ⟨⟨h1, h2⟩, h3⟩ := ih (i + 1) c hc
              exact ⟨⟨by omega, by simp only [List.length_cons]; omega⟩, h3⟩

theorem deleteLoop_tag_bounds (appid zone ym : String) (listing : List LibdnsRecord)
    (dR : Nat → Except String DeleteDomainRecord) :
    ∀ (l : List LibdnsRecord) (i : Nat),
      ∀ c ∈ (deleteLoop appid zone ym listing dR i l).calls,
        (i ≤ c.1 ∧ c.1 < i + l.length) ∧ isListCall c.2 = false := by
  intro l
  induction l with
  | nil =>
    intro i c hc
    simp [deleteLoop] at hc
  | cons r rest ih =>
    intro i c hc
    simp only [deleteLoop] at hc
    by_cases hid : (match findMatch listing r.toRR with
      | some rec => resolveId rec
      | none => "") = ""
    · rw [if_pos hid] at hc
      obtain ⟨⟨h1, h2⟩, h3⟩ := ih (i + 1) c hc
      exact ⟨⟨by omega, by simp only [List.length_cons]; omega⟩, h3⟩
    · rw [if_neg hid] at hc
      cases hdR : dR i with
      | error e =>
        simp only [hdR] at hc
        simp at hc
        subst hc
        exact ⟨⟨le_rfl, by simp only [List.length_cons]; omega⟩, rfl⟩
      | ok resp =>
        simp only [hdR] at hc
        by_cases hcode : resp.code = 1
        · rw [if_pos hcode] at hc
          simp at hc
          rcases hc with hc | hc
          · subst hc
            exact ⟨⟨le_rfl, by simp only [List.length_cons]; omega⟩, rfl⟩
          · obtain ⟨⟨h1, h2⟩, h3⟩ := ih (i + 1) c hc
            exact ⟨⟨by omega, by simp only [List.length_cons]; omega⟩, h3⟩
        · rw [if_neg hcode] at hc
          simp at hc
          rcases hc with hc | hc
          · subst hc
            exact ⟨⟨le_rfl, by simp only [List.length_cons]; omega⟩, rfl⟩
          · obtain ⟨⟨h1, h2⟩, h3⟩ := ih (i + 1) c hc
            exact ⟨⟨by omega, by simp only [List.length_cons]; omega⟩, h3⟩

theorem callsFor_cons_self (i : Nat) (a : ApiCall) (cs : List (Nat × ApiCall)) :
    callsFor i ((i, a) :: cs) = a :: callsFor i cs := by
  simp [callsFor]

theorem callsFor_nil_of_gt {i : Nat} {cs : List (Nat × ApiCall)}
    (h : ∀ c ∈ cs, i < c.1) : callsFor i cs = [] := by
  have : cs.filter (fun c => c.1 == i) = [] := by
    rw [List.filter_eq_nil_iff]
    intro c hc
    have := h c hc
    simp
    omega
  simp [callsFor, this]

theorem toUpper_hexDigitLower {n : Nat} (h : n < 16) :
    Char.toUpper (hexDigitLower n) = hexDigitUpper n := by
  revert h
  revert n
  decide

theorem map_toUpper_byteHexLower {b : Nat} (h : b < 256) :
    (byteHexLower b).map Char.toUpper = byteHexUpper b := by
  have hdiv : b / 16 < 16 := by omega
  have hmod : b % 16 < 16 := Nat.mod_lt _ (by omega)
  simp [byteHexLower, byteHexUpper, toUpper_hexDigitLower hdiv,
    toUpper_hexDigitLower hmod]

theorem map_toUpper_hexFlatten :
    ∀ bs : List Nat, (∀ b ∈ bs, b < 256) →
      ((bs.map byteHexLower).flatten).map Char.toUpper
        = (bs.map byteHexUpper).flatten := by
  intro bs
  induction bs with
  | nil => intro; rfl
  | cons b rest ih =>
    intro h
    have hb : b < 256 := h b (List.mem_cons_self b rest)
    have hrest : ∀ x ∈ rest, x < 256 := fun x hx => h x (List.mem_cons_of_mem b hx)
    simp only [List.map_cons, List.flatten_cons, List.map_append,
      map_toUpper_byteHexLower hb, ih hrest]

theorem toUpperAscii_hexLowerStr {bs : List Nat} (h : ∀ b ∈ bs, b < 256) :
    toUpperAscii (hexLowerStr bs) = hexUpperStr bs := by
  simp only [toUpperAscii, hexLowerStr, hexUpperStr]
  exact congrArg String.mk (map_toUpper_hexFlatten bs h)

/-- Claim C5: the request parameters, with the gntime timestamp
appended, are sorted by key in strict ASCII byte order and joined as
`key=value` pairs with `&` (values URL-encoded); the signature is the
uppercase hexadecimal rendering of the MD5 digest of the sorted
parameter string concatenated with the shared secret; and the request
body is the sorted parameter string followed by `&gntoken=` followed by
the signature.  `digest` abstracts the MD5 digest (16 bytes, hence the
byte-range hypothesis). -/
theorem signer_canonicalization_c5 (digest : String → List Nat)
    (endpointParams : List (String × String)) (gntime : Int) (appKey : String)
    (hb : ∀ b ∈ digest (gojoinJoin (endpointParams ++ [("gntime", toString gntime)]) ++ appKey),
      b < 256) :
    List.Sorted keyLE
      (List.insertionSort keyLE (endpointParams ++ [("gntime", toString gntime)])) ∧
    (List.insertionSort keyLE (endpointParams ++ [("gntime", toString gntime)])).Perm
      (endpointParams ++ [("gntime", toString gntime)]) ∧
    (buildSignedRequest digest endpointParams gntime appKey).sortedParams
      = String.intercalate "&"
          ((List.insertionSort keyLE (endpointParams ++ [("gntime", toString gntime)])).map
            (fun p => p.1 ++ "=" ++ urlEncode p.2)) ∧
    (buildSignedRequest digest endpointParams gntime appKey).gnToken
      = hexUpperStr (digest
          ((buildSignedRequest digest endpointParams gntime appKey).sortedParams ++ appKey)) ∧
    (buildSignedRequest digest endpointParams gntime appKey).bodyStr
      = (buildSignedRequest digest endpointParams gntime appKey).sortedParams
          ++ "&gntoken="
          ++ (buildSignedRequest digest endpointParams gntime appKey).gnToken := by
  refine ⟨List.sorted_insertionSort keyLE _, List.perm_insertionSort keyLE _, rfl, ?_, rfl⟩
  exact toUpperAscii_hexLowerStr hb

/-- Witness for C5 at a concrete digest function, parameter list,
timestamp and secret. -/
theorem signer_canonicalization_c5_witness :
    (buildSignedRequest (fun _ => [0, 255, 171, 16])
        [("ym", "example.com"), ("appid", "id 1")] 1700000000 "secret").gnToken
      = hexUpperStr ((fun _ => [0, 255, 171, 16])
          ((buildSignedRequest (fun _ => [0, 255, 171, 16])
            [("ym", "example.com"), ("appid", "id 1")] 1700000000 "secret").sortedParams
              ++ "secret")) :=
  (signer_canonicalization_c5 (fun _ => [0, 255, 171, 16])
    [("ym", "example.com"), ("appid", "id 1")] 1700000000 "secret"
    (by decide)).2.2.2.1

/-- Claim C8: mapping a vendor record to the generic form preserves the
name, type and value strings verbatim; the TTL equals the vendor TTL
field interpreted as seconds when that field parses to a positive
integer, and defaults to 600 seconds when the field is absent (empty),
zero, negative or non-numeric. -/
theorem ttl_mapping_c8 (rec : DomainResolutionRecord) (zone : String) :
    (rec.toLibdnsRecord zone).name = rec.zjt ∧
    (rec.toLibdnsRecord zone).type = rec.lx ∧
    (rec.toLibdnsRecord zone).data = rec.jxz ∧
    (∀ n : Int, atoi? rec.ttl = some n → 0 < n →
      (rec.toLibdnsRecord zone).ttl = n.toNat) ∧
    (∀ n : Int, atoi? rec.ttl = some n → n ≤ 0 →
      (rec.toLibdnsRecord zone).ttl = 600) ∧
    (atoi? rec.ttl = none → (rec.toLibdnsRecord zone).ttl = 600) := by
  refine ⟨rfl, rfl, rfl, ?_, ?_, ?_⟩
  · intro n hsome hpos
    by_cases h : rec.ttl = ""
    · rw [h] at hsome
      exact Option.noConfusion ((show atoi? "" = none from rfl) ▸ hsome)
    · simp [DomainResolutionRecord.toLibdnsRecord, h, hsome, hpos]
  · intro n hsome hle
    by_cases h : rec.ttl = ""
    · simp [DomainResolutionRecord.toLibdnsRecord, h]
    · simp [DomainResolutionRecord.toLibdnsRecord, h, hsome]
      omega
  · intro hnone
    by_cases h : rec.ttl = ""
    · simp [DomainResolutionRecord.toLibdnsRecord, h]
    · simp [DomainResolutionRecord.toLibdnsRecord, h, hnone]

/-- Witness for C8 at a concrete vendor record with TTL string "300". -/
theorem ttl_mapping_c8_witness :
    atoi? "300" = some 300 ∧ (0 : Int) < 300 ∧
    ((⟨"1", "z", "www", "A", "1.1.1.1", "", 0, "", "300"⟩ :
        DomainResolutionRecord).toLibdnsRecord "z").ttl = (300 : Int).toNat :=
  ⟨rfl, by decide,
    (ttl_mapping_c8 ⟨"1", "z", "www", "A", "1.1.1.1", "", 0, "", "300"⟩
      "z").2.2.2.1 300 rfl (by decide)⟩

/-- Claim C9, counterexample: zone normalization is not idempotent as a
function, because only one trailing dot is stripped.  At the concrete
zone "example.com.." the normalization yields "example.com.", and
normalizing that output again changes it to "example.com". -/
theorem zone_normalization_c9_counterexample :
    libdnsZoneToDnslaDomain (libdnsZoneToDnslaDomain "example.com..")
      ≠ libdnsZoneToDnslaDomain "example.com.." := by
  decide

/-- Claim C9 (amended): every zone string already in canonical form (no
trailing dot) is unchanged by the normalization; the normalization is
however not idempotent on arbitrary zone strings, since it strips only
one trailing dot. -/
theorem zone_normalization_c9 (zone : String)
    (h : endsWithDot zone = false) :
    libdnsZoneToDnslaDomain zone = zone := by
  simp [libdnsZoneToDnslaDomain, h]

/-- Witness for C9 at the canonical zone "example.com". -/
theorem zone_normalization_c9_witness :
    endsWithDot "example.com" = false ∧
    libdnsZoneToDnslaDomain "example.com" = "example.com" :=
  ⟨by decide, zone_normalization_c9 "example.com" (by decide)⟩

/-- Claim C1 (code bug): the listing inside `SetRecords` is built by
`GetRecords`, which converts every vendor record to a plain
`libdns.RR`, so the type assertion that recovers the vendor ID never
succeeds and a matched record is always skipped.  At the spec's own
scenario — listing `{id "1", www A 1.1.1.1 ttl 600}`, desired record
`www A 2.2.2.2 ttl 300` with all responders ready to succeed — the call
transcript contains only the list call (no edit call is ever issued)
and the returned success list is empty, where the claim requires
exactly one edit call carrying jxid "1" and the desired values. -/
theorem set_matched_never_edits_c1 :
    setRecords "myapp" "example.com."
      (.ok ⟨1, "ok", [⟨"1", "example.com", "www", "A", "1.1.1.1", "", 0, "", "600"⟩], 1, 1, 10⟩)
      (fun _ => .ok ⟨1, "", 2⟩) (fun _ => .ok ⟨1, "", ""⟩)
      [LibdnsRecord.rr ⟨"www", "A", "2.2.2.2", 300⟩]
      = ⟨[ApiCall.list "myapp" "example.com"], [], none⟩ := by
  rfl

/-- Claim C7, counterexample: the transport distinguishes the exact
status 200, not the 2xx class.  At status 204 (a 2xx status) with an
envelope decoding to code 0 and message "invalid appid", the call fails
with a transport error, not with the API error the claim requires. -/
theorem transport_c7_counterexample :
    processResponse (fun _ => .ok ⟨0, "invalid appid"⟩)
        (fun _ => .ok (0 : Int)) 204 "resp"
      = .error (.transport 204 "resp") ∧
    processResponse (fun _ => .ok ⟨0, "invalid appid"⟩)
        (fun _ => .ok (0 : Int)) 204 "resp"
      ≠ .error (.api "invalid appid" 0) := by
  exact ⟨rfl, by simp [processResponse]⟩

/-- Claim C7 (amended): a status other than exactly 200 — including
2xx statuses other than 200 — fails with a transport error carrying the
raw response body; a status of 200 whose decoded envelope code is not 1
fails with an API error carrying the vendor message and code; a status
of 200 with envelope code 1 returns the payload decoded from the same
body without error; and a record whose call failed is never reported as
succeeded (the append loop returns no success for it). -/
theorem transport_dispatch_c7 {T : Type}
    (decodeEnvelope : String → Except String CommonResponse)
    (decodePayload : String → Except String T)
    (statusCode : Nat) (body : String) :
    (statusCode ≠ 200 →
      processResponse decodeEnvelope decodePayload statusCode body
        = .error (.transport statusCode body)) ∧
    (∀ env, statusCode = 200 → decodeEnvelope body = .ok env → env.code ≠ 1 →
      processResponse decodeEnvelope decodePayload statusCode body
        = .error (.api env.msg env.code)) ∧
    (∀ env t, statusCode = 200 → decodeEnvelope body = .ok env → env.code = 1 →
      decodePayload body = .ok t →
      processResponse decodeEnvelope decodePayload statusCode body = .ok t) ∧
    (∀ appid zone ym aR i r rest e, aR i = .error e →
      (appendLoop appid zone ym aR i (r :: rest)).success = [] ∧
      (appendLoop appid zone ym aR i (r :: rest)).error.isSome) := by
  refine ⟨?_, ?_, ?_, ?_⟩
  · intro h
    simp [processResponse, h]
  · intro env hs henv hcode
    simp [processResponse, hs, henv, hcode]
  · intro env t hs henv hcode hpayload
    simp [processResponse, hs, henv, hcode, hpayload]
  · intro appid zone ym aR i r rest e h
    simp [appendLoop, h]

/-- Witness for C7 exercising all four conjuncts at concrete inputs. -/
theorem transport_dispatch_c7_witness :
    processResponse (fun _ => .ok ⟨1, ""⟩) (fun _ => .ok (5 : Int)) 404 "bad"
      = .error (.transport 404 "bad") ∧
    processResponse (fun _ => .ok ⟨0, "invalid appid"⟩) (fun _ => .ok (5 : Int)) 200 "r"
      = .error (.api "invalid appid" 0) ∧
    processResponse (fun _ => .ok ⟨1, ""⟩) (fun _ => .ok (5 : Int)) 200 "r" = .ok 5 ∧
    (appendLoop "a" "z." "z" (fun _ => .error "boom") 0 [LibdnsRecord.rr ⟨"w", "A", "1.1.1.1", 60⟩]).success = [] :=
  ⟨(transport_dispatch_c7 (fun _ => .ok ⟨1, ""⟩) (fun _ => .ok (5 : Int)) 404 "bad").1 (by decide),
   (transport_dispatch_c7 (fun _ => .ok ⟨0, "invalid appid"⟩) (fun _ => .ok (5 : Int)) 200 "r").2.1
     ⟨0, "invalid appid"⟩ rfl rfl (by decide),
   (transport_dispatch_c7 (fun _ => .ok ⟨1, ""⟩) (fun _ => .ok (5 : Int)) 200 "r").2.2.1
     ⟨1, ""⟩ 5 rfl rfl rfl rfl,
   ((transport_dispatch_c7 (fun _ => .ok (⟨1, ""⟩ : CommonResponse)) (fun _ => .ok (5 : Int)) 200 "r").2.2.2
     "a" "z." "z" (fun _ => .error "boom") 0 (LibdnsRecord.rr ⟨"w", "A", "1.1.1.1", 60⟩) [] "boom" rfl).1⟩

/-- Claim C2: when the desired record at position `i` of the remaining
batch has no (name, type) match in the listing taken at the start of
`SetRecords`, exactly one call is attributed to it — an add (create)
call carrying its type, name, value and TTL — and no edit call; when
that call succeeds the record appended to the success list is exactly
the input record's `RR()` (its name, type, value and TTL); when it
fails, the loop returns no success for it and an error. -/
theorem set_no_match_creates_c2 (appid zone ym : String)
    (listing : List LibdnsRecord)
    (aR : Nat → Except String AddDomainRecord)
    (eR : Nat → Except String UpdateDomainRecord)
    (i : Nat) (r : LibdnsRecord) (rest : List LibdnsRecord)
    (hfm : findMatch listing r.toRR = none) :
    callsFor i (setLoop appid zone ym listing aR eR i (r :: rest)).calls
      = [ApiCall.add appid ym r.toRR.type r.toRR.name r.toRR.data r.toRR.ttl] ∧
    (∀ v, aR i = .ok v →
      (setLoop appid zone ym listing aR eR i (r :: rest)).success
        = r.toRR :: (setLoop appid zone ym listing aR eR (i + 1) rest).success) ∧
    (∀ e, aR i = .error e →
      (setLoop appid zone ym listing aR eR i (r :: rest)).success = [] ∧
      (setLoop appid zone ym listing aR eR i (r :: rest)).error.isSome) := by
  refine ⟨?_, ?_, ?_⟩
  · cases haR : aR i with
    | error e =>
      simp only [setLoop, hfm, haR]
      rw [callsFor_cons_self]
      simp [callsFor]
    | ok v =>
      simp only [setLoop, hfm, haR]
      rw [callsFor_cons_self]
      rw [callsFor_nil_of_gt]
      intro c hc
      have := (setLoop_tag_bounds appid zone ym listing aR eR rest (i + 1) c hc).1.1
      omega
  · intro v hv
    simp [setLoop, hfm, hv]
  · intro e he
    simp [setLoop, hfm, he]

/-- Witness for C2: a record with no match against an empty listing,
with a succeeding add responder. -/
theorem set_no_match_creates_c2_witness :
    findMatch [] (LibdnsRecord.rr ⟨"w", "A", "1.2.3.4", 60⟩).toRR = none ∧
    callsFor 0 (setLoop "a" "z." "z" [] (fun _ => .ok ⟨1, "", 5⟩) (fun _ => .ok ⟨1, "", ""⟩)
        0 [LibdnsRecord.rr ⟨"w", "A", "1.2.3.4", 60⟩]).calls
      = [ApiCall.add "a" "z" "A" "w" "1.2.3.4" 60] :=
  ⟨rfl,
    (set_no_match_creates_c2 "a" "z." "z" [] (fun _ => .ok ⟨1, "", 5⟩)
      (fun _ => .ok ⟨1, "", ""⟩) 0 (LibdnsRecord.rr ⟨"w", "A", "1.2.3.4", 60⟩) [] rfl).1⟩

/-- Claim C3: when the target record at position `i` of the remaining
batch has no (name, type) match in the listing taken at the start of
`DeleteRecords`, no delete call is made for it (the loop outcome is
exactly that of the remaining records, so it contributes nothing to the
returned deleted list either). -/
theorem delete_no_match_skips_c3 (appid zone ym : String)
    (listing : List LibdnsRecord)
    (dR : Nat → Except String DeleteDomainRecord)
    (i : Nat) (r : LibdnsRecord) (rest : List LibdnsRecord)
    (hfm : findMatch listing r.toRR = none) :
    deleteLoop appid zone ym listing dR i (r :: rest)
      = deleteLoop appid zone ym listing dR (i + 1) rest ∧
    callsFor i (deleteLoop appid zone ym listing dR i (r :: rest)).calls = [] := by
  have hstep : deleteLoop appid zone ym listing dR i (r :: rest)
      = deleteLoop appid zone ym listing dR (i + 1) rest := by
    simp [deleteLoop, hfm]
  refine ⟨hstep, ?_⟩
  rw [hstep]
  rw [callsFor_nil_of_gt]
  intro c hc
  have := (deleteLoop_tag_bounds appid zone ym listing dR rest (i + 1) c hc).1.1
  omega

/-- Witness for C3: a target record matching nothing in a listing that
holds only a record of a different type. -/
theorem delete_no_match_skips_c3_witness :
    findMatch [LibdnsRecord.rr ⟨"w", "TXT", "x", 600⟩]
      (LibdnsRecord.rr ⟨"w", "A", "1.2.3.4", 60⟩).toRR = none ∧
    callsFor 0 (deleteLoop "a" "z." "z" [LibdnsRecord.rr ⟨"w", "TXT", "x", 600⟩]
        (fun _ => .ok ⟨1, ""⟩) 0 [LibdnsRecord.rr ⟨"w", "A", "1.2.3.4", 60⟩]).calls = [] :=
  ⟨rfl,
    (delete_no_match_skips_c3 "a" "z." "z" [LibdnsRecord.rr ⟨"w", "TXT", "x", 600⟩]
      (fun _ => .ok ⟨1, ""⟩) 0 (LibdnsRecord.rr ⟨"w", "A", "1.2.3.4", 60⟩) [] rfl).2⟩

/-- Claim C4: a record whose (name, type) matches a listed record whose
vendor ID cannot be recovered (the type assertion fails or yields an
empty ID) is skipped silently by both the set loop and the delete loop:
no call is attributed to it and the loop outcome — calls, success list
and error — is exactly that of the remaining records. -/
theorem unresolvable_id_skips_c4 (appid zone ym : String)
    (listing : List LibdnsRecord)
    (aR : Nat → Except String AddDomainRecord)
    (eR : Nat → Except String UpdateDomainRecord)
    (dR : Nat → Except String DeleteDomainRecord)
    (i : Nat) (r : LibdnsRecord) (rest : List LibdnsRecord)
    (rec : LibdnsRecord)
    (hfm : findMatch listing r.toRR = some rec)
    (hid : resolveId rec = "") :
    setLoop appid zone ym listing aR eR i (r :: rest)
      = setLoop appid zone ym listing aR eR (i + 1) rest ∧
    callsFor i (setLoop appid zone ym listing aR eR i (r :: rest)).calls = [] ∧
    deleteLoop appid zone ym listing dR i (r :: rest)
      = deleteLoop appid zone ym listing dR (i + 1) rest ∧
    callsFor i (deleteLoop appid zone ym listing dR i (r :: rest)).calls = [] := by
  have hset : setLoop appid zone ym listing aR eR i (r :: rest)
      = setLoop appid zone ym listing aR eR (i + 1) rest := by
    simp [setLoop, hfm, hid]
  have hdel : deleteLoop appid zone ym listing dR i (r :: rest)
      = deleteLoop appid zone ym listing dR (i + 1) rest := by
    simp [deleteLoop, hfm, hid]
  refine ⟨hset, ?_, hdel, ?_⟩
  · rw [hset]
    rw [callsFor_nil_of_gt]
    intro c hc
    have := (setLoop_tag_bounds appid zone ym listing aR eR rest (i + 1) c hc).1.1
    omega
  · rw [hdel]
    rw [callsFor_nil_of_gt]
    intro c hc
    have := (deleteLoop_tag_bounds appid zone ym listing dR rest (i + 1) c hc).1.1
    omega

/-- Witness for C4: the realistic case — the listing entry produced by
`GetRecords` is a plain `libdns.RR`, so the type assertion fails and
the matched record is skipped by both loops. -/
theorem unresolvable_id_skips_c4_witness :
    findMatch [LibdnsRecord.rr ⟨"w", "A", "5.5.5.5", 600⟩]
      (LibdnsRecord.rr ⟨"w", "A", "1.2.3.4", 60⟩).toRR
      = some (LibdnsRecord.rr ⟨"w", "A", "5.5.5.5", 600⟩) ∧
    resolveId (LibdnsRecord.rr ⟨"w", "A", "5.5.5.5", 600⟩) = "" ∧
    callsFor 0 (setLoop "a" "z." "z" [LibdnsRecord.rr ⟨"w", "A", "5.5.5.5", 600⟩]
        (fun _ => .ok ⟨1, "", 5⟩) (fun _ => .ok ⟨1, "", ""⟩)
        0 [LibdnsRecord.rr ⟨"w", "A", "1.2.3.4", 60⟩]).calls = [] :=
  ⟨rfl, rfl,
    (unresolvable_id_skips_c4 "a" "z." "z" [LibdnsRecord.rr ⟨"w", "A", "5.5.5.5", 600⟩]
      (fun _ => .ok ⟨1, "", 5⟩) (fun _ => .ok ⟨1, "", ""⟩) (fun _ => .ok ⟨1, ""⟩)
      0 (LibdnsRecord.rr ⟨"w", "A", "1.2.3.4", 60⟩) []
      (LibdnsRecord.rr ⟨"w", "A", "5.5.5.5", 600⟩) rfl rfl).2.1⟩

theorem appendLoop_split (appid zone ym : String)
    (aR : Nat → Except String AddDomainRecord) :
    ∀ (done : List LibdnsRecord) (i : Nat) (rest : List LibdnsRecord),
      (∀ j (hj : j < done.length), isOkB (aR (i + j)) = true) →
      appendLoop appid zone ym aR i (done ++ rest)
        = ⟨(appendLoop appid zone ym aR i done).calls
            ++ (appendLoop appid zone ym aR (i + done.length) rest).calls,
           (appendLoop appid zone ym aR i done).success
            ++ (appendLoop appid zone ym aR (i + done.length) rest).success,
           (appendLoop appid zone ym aR (i + done.length) rest).error⟩ := by
  intro done
  induction done with
  | nil =>
    intro i rest h
    simp [appendLoop]
  | cons r done ih =>
    intro i rest h
    have h0 : isOkB (aR i) = true := by
      have := h 0 (by simp)
      simpa using this
    cases haR : aR i with
    | error e =>
      rw [haR] at h0
      simp [isOkB] at h0
    | ok v =>
      have hshift : ∀ j (hj : j < done.length), isOkB (aR (i + 1 + j)) = true := by
        intro j hj
        have := h (j + 1) (by simp; omega)
        rwa [show i + (j + 1) = i + 1 + j by omega] at this
      have hidx : i + (r :: done).length = i + 1 + done.length := by
        simp [List.length_cons]
        omega
      simp only [List.cons_append, appendLoop, haR, List.append_eq]
      rw [ih (i + 1) rest hshift, hidx]

theorem setLoop_split (appid zone ym : String) (listing : List LibdnsRecord)
    (aR : Nat → Except String AddDomainRecord)
    (eR : Nat → Except String UpdateDomainRecord) :
    ∀ (done : List LibdnsRecord) (i : Nat) (rest : List LibdnsRecord),
      (∀ j (hj : j < done.length), setStepOk listing aR eR (i + j) done[j] = true) →
      setLoop appid zone ym listing aR eR i (done ++ rest)
        = ⟨(setLoop appid zone ym listing aR eR i done).calls
            ++ (setLoop appid zone ym listing aR eR (i + done.length) rest).calls,
           (setLoop appid zone ym listing aR eR i done).success
            ++ (setLoop appid zone ym listing aR eR (i + done.length) rest).success,
           (setLoop appid zone ym listing aR eR (i + done.length) rest).error⟩ := by
  intro done
  induction done with
  | nil =>
    intro i rest h
    simp [setLoop]
  | cons r done ih =>
    intro i rest h
    have h0 : setStepOk listing aR eR i r = true := by
      have := h 0 (by simp)
      simpa using this
    have hshift : ∀ j (hj : j < done.length),
        setStepOk listing aR eR (i + 1 + j) done[j] = true := by
      intro j hj
      have := h (j + 1) (by simp; omega)
      rw [show i + (j + 1) = i + 1 + j by omega] at this
      simpa using this
    have hidx : i + (r :: done).length = i + 1 + done.length := by
      simp [List.length_cons]
      omega
    rw [setStepOk] at h0
    cases hfm : findMatch listing r.toRR with
    | none =>
      rw [hfm] at h0
      cases haR : aR i with
      | error e =>
        rw [haR] at h0
        simp [isOkB] at h0
      | ok v =>
        simp only [List.cons_append, setLoop, hfm, haR, List.append_eq]
        rw [ih (i + 1) rest hshift, hidx]
    | some rec =>
      rw [hfm] at h0
      by_cases hid : resolveId rec = ""
      · simp only [List.cons_append, setLoop, hfm, if_pos hid, List.append_eq]
        rw [ih (i + 1) rest hshift, hidx]
      · have hok : isOkB (eR i) = true := by
          simp [hid] at h0
          exact h0
        cases heR : eR i with
        | error e =>
          rw [heR] at hok
          simp [isOkB] at hok
        | ok resp =>
          by_cases hcode : resp.code = 1
          · simp only [List.cons_append, setLoop, hfm, if_neg hid, heR,
              if_pos hcode, List.append_eq]
            rw [ih (i + 1) rest hshift, hidx]
          · simp only [List.cons_append, setLoop, hfm, if_neg hid, heR,
              if_neg hcode, List.append_eq]
            rw [ih (i + 1) rest hshift, hidx]

theorem deleteLoop_split (appid zone ym : String) (listing : List LibdnsRecord)
    (dR : Nat → Except String DeleteDomainRecord) :
    ∀ (done : List LibdnsRecord) (i : Nat) (rest : List LibdnsRecord),
      (∀ j (hj : j < done.length), delStepOk listing dR (i + j) done[j] = true) →
      deleteLoop appid zone ym listing dR i (done ++ rest)
        = ⟨(deleteLoop appid zone ym listing dR i done).calls
            ++ (deleteLoop appid zone ym listing dR (i + done.length) rest).calls,
           (deleteLoop appid zone ym listing dR i done).success
            ++ (deleteLoop appid zone ym listing dR (i + done.length) rest).success,
           (deleteLoop appid zone ym listing dR (i + done.length) rest).error⟩ := by
  intro done
  induction done with
  | nil =>
    intro i rest h
    simp [deleteLoop]
  | cons r done ih =>
    intro i rest h
    have h0 : delStepOk listing dR i r = true := by
      have := h 0 (by simp)
      simpa using this
    have hshift : ∀ j (hj : j < done.length),
        delStepOk listing dR (i + 1 + j) done[j] = true := by
      intro j hj
      have := h (j + 1) (by simp; omega)
      rw [show i + (j + 1) = i + 1 + j by omega] at this
      simpa using this
    have hidx : i + (r :: done).length = i + 1 + done.length := by
      simp [List.length_cons]
      omega
    rw [delStepOk] at h0
    by_cases hid : (match findMatch listing r.toRR with
      | some rec => resolveId rec
      | none => "") = ""
    · simp only [List.cons_append, deleteLoop, if_pos hid, List.append_eq]
      rw [ih (i + 1) rest hshift, hidx]
    · have hok : isOkB (dR i) = true := by
        cases hfm : findMatch listing r.toRR with
        | none =>
          rw [hfm] at hid
          simp at hid
        | some rec =>
          rw [hfm] at h0 hid
          simp [hid] at h0
          exact h0
      cases hdR : dR i with
      | error e =>
        rw [hdR] at hok
        simp [isOkB] at hok
      | ok resp =>
        by_cases hcode : resp.code = 1
        · simp only [List.cons_append, deleteLoop, if_neg hid, hdR,
            if_pos hcode, List.append_eq]
          rw [ih (i + 1) rest hshift, hidx]
        · simp only [List.cons_append, deleteLoop, if_neg hid, hdR,
            if_neg hcode, List.append_eq]
          rw [ih (i + 1) rest hshift, hidx]

theorem appendLoop_fail_frame (appid zone ym : String)
    (aR : Nat → Except String AddDomainRecord)
    (i : Nat) (r : LibdnsRecord) (rest : List LibdnsRecord)
    (hfail : isOkB (aR i) = false) :
    (appendLoop appid zone ym aR i (r :: rest)).success = [] ∧
    (appendLoop appid zone ym aR i (r :: rest)).error.isSome = true ∧
    ∀ c ∈ (appendLoop appid zone ym aR i (r :: rest)).calls, c.1 = i := by
  cases haR : aR i with
  | ok v =>
    rw [haR] at hfail
    simp [isOkB] at hfail
  | error e =>
    simp [appendLoop, haR]

theorem setLoop_fail_frame (appid zone ym : String) (listing : List LibdnsRecord)
    (aR : Nat → Except String AddDomainRecord)
    (eR : Nat → Except String UpdateDomainRecord)
    (i : Nat) (r : LibdnsRecord) (rest : List LibdnsRecord)
    (hfail : setStepOk listing aR eR i r = false) :
    (setLoop appid zone ym listing aR eR i (r :: rest)).success = [] ∧
    (setLoop appid zone ym listing aR eR i (r :: rest)).error.isSome = true ∧
    ∀ c ∈ (setLoop appid zone ym listing aR eR i (r :: rest)).calls, c.1 = i := by
  rw [setStepOk] at hfail
  cases hfm : findMatch listing r.toRR with
  | none =>
    rw [hfm] at hfail
    cases haR : aR i with
    | ok v =>
      rw [haR] at hfail
      simp [isOkB] at hfail
    | error e =>
      simp [setLoop, hfm, haR]
  | some rec =>
    rw [hfm] at hfail
    simp only [Bool.or_eq_false_iff] at hfail
    obtain ⟨hid, hek⟩ := hfail
    have hidP : ¬ resolveId rec = "" := by
      intro hcontra
      rw [hcontra] at hid
      simp at hid
    cases heR : eR i with
    | ok resp =>
      rw [heR] at hek
      simp [isOkB] at hek
    | error e =>
      simp [setLoop, hfm, if_neg hidP, heR]

theorem deleteLoop_fail_frame (appid zone ym : String) (listing : List LibdnsRecord)
    (dR : Nat → Except String DeleteDomainRecord)
    (i : Nat) (r : LibdnsRecord) (rest : List LibdnsRecord)
    (hfail : delStepOk listing dR i r = false) :
    (deleteLoop appid zone ym listing dR i (r :: rest)).success = [] ∧
    (deleteLoop appid zone ym listing dR i (r :: rest)).error.isSome = true ∧
    ∀ c ∈ (deleteLoop appid zone ym listing dR i (r :: rest)).calls, c.1 = i := by
  rw [delStepOk] at hfail
  cases hfm : findMatch listing r.toRR with
  | none =>
    rw [hfm] at hfail
    simp at hfail
  | some rec =>
    rw [hfm] at hfail
    simp only [Bool.or_eq_false_iff] at hfail
    obtain ⟨hid, hek⟩ := hfail
    have hidP : ¬ resolveId rec = "" := by
      intro hcontra
      rw [hcontra] at hid
      simp at hid
    have hcond : ¬ (match findMatch listing r.toRR with
        | some rec => resolveId rec
        | none => "") = "" := by
      rw [hfm]
      exact hidP
    cases hdR : dR i with
    | ok resp =>
      rw [hdR] at hek
      simp [isOkB] at hek
    | error e =>
      simp [deleteLoop, if_neg hcond, hdR]

/-- Claim C6: batch operations are fail-fast and non-atomic.  For each
of the three operations, when every record before position `k` of the
batch gets past its step and the record at position `k` fails its call,
the loop run over the whole batch returns exactly the successes of the
run over the prefix (whose error is `none` — those records had already
succeeded), together with an error, and no call is made for any record
after position `k`. -/
theorem fail_fast_partial_results_c6 (appid zone ym : String)
    (listing : List LibdnsRecord)
    (aR : Nat → Except String AddDomainRecord)
    (eR : Nat → Except String UpdateDomainRecord)
    (dR : Nat → Except String DeleteDomainRecord)
    (done : List LibdnsRecord) (r : LibdnsRecord) (rest : List LibdnsRecord) :
    ((∀ j (hj : j < done.length), isOkB (aR j) = true) →
      isOkB (aR done.length) = false →
      (appendLoop appid zone ym aR 0 (done ++ r :: rest)).success
        = (appendLoop appid zone ym aR 0 done).success ∧
      (appendLoop appid zone ym aR 0 done).error = none ∧
      (appendLoop appid zone ym aR 0 (done ++ r :: rest)).error.isSome = true ∧
      (∀ c ∈ (appendLoop appid zone ym aR 0 (done ++ r :: rest)).calls,
        c.1 ≤ done.length)) ∧
    ((∀ j (hj : j < done.length), setStepOk listing aR eR j done[j] = true) →
      setStepOk listing aR eR done.length r = false →
      (setLoop appid zone ym listing aR eR 0 (done ++ r :: rest)).success
        = (setLoop appid zone ym listing aR eR 0 done).success ∧
      (setLoop appid zone ym listing aR eR 0 done).error = none ∧
      (setLoop appid zone ym listing aR eR 0 (done ++ r :: rest)).error.isSome = true ∧
      (∀ c ∈ (setLoop appid zone ym listing aR eR 0 (done ++ r :: rest)).calls,
        c.1 ≤ done.length)) ∧
    ((∀ j (hj : j < done.length), delStepOk listing dR j done[j] = true) →
      delStepOk listing dR done.length r = false →
      (deleteLoop appid zone ym listing dR 0 (done ++ r :: rest)).success
        = (deleteLoop appid zone ym listing dR 0 done).success ∧
      (deleteLoop appid zone ym listing dR 0 done).error = none ∧
      (deleteLoop appid zone ym listing dR 0 (done ++ r :: rest)).error.isSome = true ∧
      (∀ c ∈ (deleteLoop appid zone ym listing dR 0 (done ++ r :: rest)).calls,
        c.1 ≤ done.length)) := by
  refine ⟨?_, ?_, ?_⟩
  · intro h hfail
    have h' : ∀ j (hj : j < done.length), isOkB (aR (0 + j)) = true := by
      intro j hj
      simpa using h j hj
    have hsplit := appendLoop_split appid zone ym aR done 0 (r :: rest) h'
    rw [Nat.zero_add] at hsplit
    have hframe := appendLoop_fail_frame appid zone ym aR done.length r rest hfail
    refine ⟨?_, ?_, ?_, ?_⟩
    · rw [hsplit]
      simp [hframe.1]
    · have h2 := appendLoop_split appid zone ym aR done 0 [] h'
      rw [List.append_nil, Nat.zero_add] at h2
      rw [h2]
      simp [appendLoop]
    · rw [hsplit]
      exact hframe.2.1
    · intro c hc
      rw [hsplit] at hc
      simp only [List.mem_append] at hc
      rcases hc with hc | hc
      · have := (appendLoop_tag_bounds appid zone ym aR done 0 c hc).1.2
        omega
      · have := hframe.2.2 c hc
        omega
  · intro h hfail
    have h' : ∀ j (hj : j < done.length), setStepOk listing aR eR (0 + j) done[j] = true := by
      intro j hj
      simpa using h j hj
    have hsplit := setLoop_split appid zone ym listing aR eR done 0 (r :: rest) h'
    rw [Nat.zero_add] at hsplit
    have hframe := setLoop_fail_frame appid zone ym listing aR eR done.length r rest hfail
    refine ⟨?_, ?_, ?_, ?_⟩
    · rw [hsplit]
      simp [hframe.1]
    · have h2 := setLoop_split appid zone ym listing aR eR done 0 [] h'
      rw [List.append_nil, Nat.zero_add] at h2
      rw [h2]
      simp [setLoop]
    · rw [hsplit]
      exact hframe.2.1
    · intro c hc
      rw [hsplit] at hc
      simp only [List.mem_append] at hc
      rcases hc with hc | hc
      · have := (setLoop_tag_bounds appid zone ym listing aR eR done 0 c hc).1.2
        omega
      · have := hframe.2.2 c hc
        omega
  · intro h hfail
    have h' : ∀ j (hj : j < done.length), delStepOk listing dR (0 + j) done[j] = true := by
      intro j hj
      simpa using h j hj
    have hsplit := deleteLoop_split appid zone ym listing dR done 0 (r :: rest) h'
    rw [Nat.zero_add] at hsplit
    have hframe := deleteLoop_fail_frame appid zone ym listing dR done.length r rest hfail
    refine ⟨?_, ?_, ?_, ?_⟩
    · rw [hsplit]
      simp [hframe.1]
    · have h2 := deleteLoop_split appid zone ym listing dR done 0 [] h'
      rw [List.append_nil, Nat.zero_add] at h2
      rw [h2]
      simp [deleteLoop]
    · rw [hsplit]
      exact hframe.2.1
    · intro c hc
      rw [hsplit] at hc
      simp only [List.mem_append] at hc
      rcases hc with hc | hc
      · have := (deleteLoop_tag_bounds appid zone ym listing dR done 0 c hc).1.2
        omega
      · have := hframe.2.2 c hc
        omega

theorem callsFor_cons_ne {i j : Nat} (h : j ≠ i) (a : ApiCall)
    (cs : List (Nat × ApiCall)) :
    callsFor i ((j, a) :: cs) = callsFor i cs := by
  simp [callsFor, h]

theorem findMatch_congr_keys (listing : List LibdnsRecord) {r r' : LibdnsRecord}
    (hn : r.toRR.name = r'.toRR.name) (ht : r.toRR.type = r'.toRR.type) :
    findMatch listing r'.toRR = findMatch listing r.toRR := by
  rw [findMatch, findMatch, ← hn, ← ht]

/-- Claim C10: `SetRecords` and `DeleteRecords` each make exactly one
list call, as the first call of the transcript; the loops themselves
never emit a list call, so every record in the batch is matched against
that single snapshot.  In particular two input records sharing the same
(name, type) with no match in the snapshot each trigger their own add
(create) call — the record created for the first is not visible when
the second is matched. -/
theorem single_snapshot_c10 (appid zone ym : String)
    (listResult : Except String ResolutionList)
    (listing : List LibdnsRecord)
    (aR : Nat → Except String AddDomainRecord)
    (eR : Nat → Except String UpdateDomainRecord)
    (dR : Nat → Except String DeleteDomainRecord)
    (records : List LibdnsRecord)
    (i : Nat) (r r' : LibdnsRecord) (rest : List LibdnsRecord) :
    ((setRecords appid zone listResult aR eR records).calls.filter isListCall
        = [ApiCall.list appid (libdnsZoneToDnslaDomain zone)] ∧
      (setRecords appid zone listResult aR eR records).calls.head?
        = some (ApiCall.list appid (libdnsZoneToDnslaDomain zone))) ∧
    ((deleteRecords appid zone listResult dR records).calls.filter isListCall
        = [ApiCall.list appid (libdnsZoneToDnslaDomain zone)] ∧
      (deleteRecords appid zone listResult dR records).calls.head?
        = some (ApiCall.list appid (libdnsZoneToDnslaDomain zone))) ∧
    (r.toRR.name = r'.toRR.name → r.toRR.type = r'.toRR.type →
      findMatch listing r.toRR = none → isOkB (aR i) = true →
      callsFor i (setLoop appid zone ym listing aR eR i (r :: r' :: rest)).calls
        = [ApiCall.add appid ym r.toRR.type r.toRR.name r.toRR.data r.toRR.ttl] ∧
      callsFor (i + 1) (setLoop appid zone ym listing aR eR i (r :: r' :: rest)).calls
        = [ApiCall.add appid ym r'.toRR.type r'.toRR.name r'.toRR.data r'.toRR.ttl]) := by
  refine ⟨?_, ?_, ?_⟩
  · cases hget : getRecords zone listResult with
    | error e =>
      simp [setRecords, hget, isListCall]
    | ok listing0 =>
      have hnolist : ((setLoop appid zone (libdnsZoneToDnslaDomain zone) listing0 aR eR
          0 records).calls.map Prod.snd).filter isListCall = [] := by
        rw [List.filter_eq_nil_iff]
        intro x hx
        obtain ⟨c, hc, hcx⟩ := List.mem_map.mp hx
        have := (setLoop_tag_bounds appid zone (libdnsZoneToDnslaDomain zone)
          listing0 aR eR records 0 c hc).2
        rw [hcx] at this
        simp [this]
      constructor
      · simp only [setRecords, hget]
        simp [isListCall, hnolist]
      · simp [setRecords, hget]
  · cases hget : getRecords zone listResult with
    | error e =>
      simp [deleteRecords, hget, isListCall]
    | ok listing0 =>
      have hnolist : ((deleteLoop appid zone (libdnsZoneToDnslaDomain zone) listing0 dR
          0 records).calls.map Prod.snd).filter isListCall = [] := by
        rw [List.filter_eq_nil_iff]
        intro x hx
        obtain ⟨c, hc, hcx⟩ := List.mem_map.mp hx
        have := (deleteLoop_tag_bounds appid zone (libdnsZoneToDnslaDomain zone)
          listing0 dR records 0 c hc).2
        rw [hcx] at this
        simp [this]
      constructor
      · simp only [deleteRecords, hget]
        simp [isListCall, hnolist]
      · simp [deleteRecords, hget]
  · intro hn ht hfm hok
    have hfm' : findMatch listing r'.toRR = none := by
      rw [findMatch_congr_keys listing hn ht]
      exact hfm
    cases haR : aR i with
    | error e =>
      rw [haR] at hok
      simp [isOkB] at hok
    | ok v =>
      have houter : setLoop appid zone ym listing aR eR i (r :: r' :: rest)
          = ⟨(i, ApiCall.add appid ym r.toRR.type r.toRR.name r.toRR.data r.toRR.ttl)
              :: (setLoop appid zone ym listing aR eR (i + 1) (r' :: rest)).calls,
             r.toRR :: (setLoop appid zone ym listing aR eR (i + 1) (r' :: rest)).success,
             (setLoop appid zone ym listing aR eR (i + 1) (r' :: rest)).error⟩ := by
        simp [setLoop, hfm, haR]
      constructor
      · rw [houter]
        rw [callsFor_cons_self]
        rw [callsFor_nil_of_gt]
        intro c hc
        have := (setLoop_tag_bounds appid zone ym listing aR eR (r' :: rest)
          (i + 1) c hc).1.1
        omega
      · rw [houter]
        rw [callsFor_cons_ne (by omega)]
        cases haR' : aR (i + 1) with
        | error e =>
          simp only [setLoop, hfm', haR']
          rw [callsFor_cons_self]
          simp [callsFor]
        | ok v' =>
          simp only [setLoop, hfm', haR']
          rw [callsFor_cons_self]
          rw [callsFor_nil_of_gt]
          intro c hc
          have := (setLoop_tag_bounds appid zone ym listing aR eR rest
            (i + 1 + 1) c hc).1.1
          omega

/-- Witness for C6: batches of two records where the second call fails,
for each of the three operations. -/
theorem fail_fast_partial_results_c6_witness :
    (appendLoop "a" "z." "z"
        (fun i => if i = 0 then .ok ⟨1, "", 5⟩ else .error "boom") 0
        ([LibdnsRecord.rr ⟨"n", "TXT", "v", 60⟩]
          ++ [LibdnsRecord.rr ⟨"w", "A", "1.2.3.4", 60⟩])).success
      = (appendLoop "a" "z." "z"
          (fun i => if i = 0 then .ok ⟨1, "", 5⟩ else .error "boom") 0
          [LibdnsRecord.rr ⟨"n", "TXT", "v", 60⟩]).success ∧
    (setLoop "a" "z." "z"
        [LibdnsRecord.vendor ⟨"9", "z", "w", "A", "5.5.5.5", "", 0, "", "600"⟩]
        (fun i => if i = 0 then .ok ⟨1, "", 5⟩ else .error "boom")
        (fun _ => .error "boom") 0
        ([LibdnsRecord.rr ⟨"n", "TXT", "v", 60⟩]
          ++ [LibdnsRecord.rr ⟨"w", "A", "1.2.3.4", 60⟩])).error.isSome = true ∧
    (deleteLoop "a" "z." "z"
        [LibdnsRecord.vendor ⟨"9", "z", "w", "A", "5.5.5.5", "", 0, "", "600"⟩]
        (fun _ => .error "boom") 0
        ([LibdnsRecord.rr ⟨"n", "TXT", "v", 60⟩]
          ++ [LibdnsRecord.rr ⟨"w", "A", "1.2.3.4", 60⟩])).success
      = (deleteLoop "a" "z." "z"
          [LibdnsRecord.vendor ⟨"9", "z", "w", "A", "5.5.5.5", "", 0, "", "600"⟩]
          (fun _ => .error "boom") 0
          [LibdnsRecord.rr ⟨"n", "TXT", "v", 60⟩]).success :=
  ⟨((fail_fast_partial_results_c6 "a" "z." "z"
      [LibdnsRecord.vendor ⟨"9", "z", "w", "A", "5.5.5.5", "", 0, "", "600"⟩]
      (fun i => if i = 0 then .ok ⟨1, "", 5⟩ else .error "boom")
      (fun _ => .error "boom") (fun _ => .error "boom")
      [LibdnsRecord.rr ⟨"n", "TXT", "v", 60⟩]
      (LibdnsRecord.rr ⟨"w", "A", "1.2.3.4", 60⟩) []).1
      (by decide) (by decide)).1,
   ((fail_fast_partial_results_c6 "a" "z." "z"
      [LibdnsRecord.vendor ⟨"9", "z", "w", "A", "5.5.5.5", "", 0, "", "600"⟩]
      (fun i => if i = 0 then .ok ⟨1, "", 5⟩ else .error "boom")
      (fun _ => .error "boom") (fun _ => .error "boom")
      [LibdnsRecord.rr ⟨"n", "TXT", "v", 60⟩]
      (LibdnsRecord.rr ⟨"w", "A", "1.2.3.4", 60⟩) []).2.1
      (by decide) (by decide)).2.2.1,
   ((fail_fast_partial_results_c6 "a" "z." "z"
      [LibdnsRecord.vendor ⟨"9", "z", "w", "A", "5.5.5.5", "", 0, "", "600"⟩]
      (fun i => if i = 0 then .ok ⟨1, "", 5⟩ else .error "boom")
      (fun _ => .error "boom") (fun _ => .error "boom")
      [LibdnsRecord.rr ⟨"n", "TXT", "v", 60⟩]
      (LibdnsRecord.rr ⟨"w", "A", "1.2.3.4", 60⟩) []).2.2
      (by decide) (by decide)).1⟩

/-- Witness for C10: two desired records with identical (name, type)
absent from the snapshot each get their own add call. -/
theorem single_snapshot_c10_witness :
    callsFor 0 (setLoop "a" "z." "z" []
        (fun _ => .ok ⟨1, "", 5⟩) (fun _ => .ok ⟨1, "", ""⟩) 0
        [LibdnsRecord.rr ⟨"w", "A", "1.1.1.1", 60⟩,
         LibdnsRecord.rr ⟨"w", "A", "2.2.2.2", 120⟩]).calls
      = [ApiCall.add "a" "z" "A" "w" "1.1.1.1" 60] ∧
    callsFor 1 (setLoop "a" "z." "z" []
        (fun _ => .ok ⟨1, "", 5⟩) (fun _ => .ok ⟨1, "", ""⟩) 0
        [LibdnsRecord.rr ⟨"w", "A", "1.1.1.1", 60⟩,
         LibdnsRecord.rr ⟨"w", "A", "2.2.2.2", 120⟩]).calls
      = [ApiCall.add "a" "z" "A" "w" "2.2.2.2" 120] :=
  (single_snapshot_c10 "a" "z." "z" (.ok ⟨1, "", [], 0, 0, 0⟩) []
    (fun _ => .ok ⟨1, "", 5⟩) (fun _ => .ok ⟨1, "", ""⟩) (fun _ => .ok ⟨1, ""⟩)
    [] 0 (LibdnsRecord.rr ⟨"w", "A", "1.1.1.1", 60⟩)
    (LibdnsRecord.rr ⟨"w", "A", "2.2.2.2", 120⟩) []).2.2 rfl rfl rfl rfl

end Gname
